import Mathlib

/-
Verification of the ZWOM workout-language core (parser, validator/interpreter,
serializer) against its natural-language specification.

The Python source is shallowly embedded:
  * `zwo/parser.py`   : the PEG grammar is embedded as character-level matchers
    (faithful to parsimonious semantics: ordered choice, greedy regexes,
    quantifier loops that stop on a failed or zero-length match, and the
    requirement that a parse consume the whole input), and the tree visitor is
    embedded as a conversion from the matched concrete structure to `Block`s.
  * `zwo/interpreter.py` : `ZWOMValidator` is embedded as an explicit fold with
    a scan state (`ScanState`); machine integers are `Nat`/`Int`.
  * `zwo/serialize.py` : the element-building routines are embedded with
    attribute values abstracted to exact rationals / decimal strings
    (Python renders them with `str`, e.g. `str(power / ftp)`).

Python exceptions are modelled with `Except`: `ZWOMValidationError` by
`VError`, non-`ValidationError` crashes (`IndexError` from `raw_blocks[0]`,
`ValueError` from the serializer's type-narrowing guards, `KeyError` escaping
the node visitor as a `VisitationError`) by dedicated constructors.
-/

namespace ZWOM

/-! ## Characters and decimal digits (models of Python `str`/`int` basics) -/

/-- Model of Python's character class `\s` / `str.strip()` whitespace for the
ASCII range: space, tab, newline, carriage return, vertical tab, form feed. -/
def isPySpace (c : Char) : Bool :=
  c = ' ' || c = '\t' || c = '\n' || c = '\r' || c = Char.ofNat 11 || c = Char.ofNat 12

/-- Characters matched by the `tag` regex `[A-Z_]+`. -/
def isTagChar (c : Char) : Bool :=
  ('A' ≤ c && c ≤ 'Z') || c = '_'

/-- Characters matched by the `number` regex `\d+` (ASCII digits). -/
def isDigitChar (c : Char) : Bool :=
  '0' ≤ c && c ≤ '9'

/-- The ASCII digit character for a value `d < 10`. -/
def digitChar (d : Nat) : Char := Char.ofNat (48 + d)

/-- Fuel-driven core of `digitsOf`; any `fuel > n` yields the decimal
digits of `n`, most significant first. -/
def digitsGo : Nat → Nat → List Char
  | 0, _ => []
  | fuel + 1, n =>
    if n < 10 then [digitChar n]
    else digitsGo fuel (n / 10) ++ [digitChar (n % 10)]

/-- Model of Python's `str(n)` for a non-negative integer: decimal digits,
most significant first. -/
def digitsOf (n : Nat) : List Char := digitsGo (n + 1) n

/-- Model of Python's `int(text)` on a string of decimal digits. -/
def parseDigits (ds : List Char) : Nat :=
  ds.foldl (fun a c => 10 * a + (c.toNat - 48)) 0

/-! ## Data model (`zwo/parser.py`) -/

/-- `Tag`: the closed enumeration of recognized keywords (`class Tag(StrEnum)`). -/
inductive Tag where
  | AUTHOR | CADENCE | COOLDOWN | DESCRIPTION | DURATION | FREE | FTP
  | INTERVALS | META | NAME | POWER | RAMP | REPEAT | SEGMENT | TAGS | WARMUP
  | MESSAGES
  | START_REPEAT | END_REPEAT
deriving DecidableEq, Repr

/-- `PowerZone`: named power zones, each mapping to a fixed `Percentage`. -/
inductive PowerZone where
  | Z1 | Z2 | Z3 | SS | Z4 | Z5 | Z6 | Z7
deriving DecidableEq, Repr

/-- The `Percentage` value backing each `PowerZone` member. -/
def zonePct : PowerZone → Nat
  | .Z1 => 50
  | .Z2 => 65
  | .Z3 => 81
  | .SS => 90
  | .Z4 => 95
  | .Z5 => 109
  | .Z6 => 125
  | .Z7 => 150

/-- `RANGE_T = Percentage | Duration | PowerZone | int`: the value kinds a
`Range` endpoint may take.  `dur` carries total seconds (the `Duration`
dataclass stores a timedelta; `str()` renders its integer total seconds). -/
inductive RVal where
  | i (n : Nat)
  | pct (n : Nat)
  | zone (z : PowerZone)
  | dur (secs : Nat)
deriving DecidableEq, Repr

/-- The scalar / composite parameter values the visitor can produce
(`VAL_T`, minus the `list[Message] | None` housekeeping entry, which is kept
as a separate `Block` field below). -/
inductive Val where
  | i (n : Nat)
  | str (s : List Char)
  | pct (n : Nat)
  | zone (z : PowerZone)
  | dur (secs : Nat)
  | range (left right : RVal)
deriving DecidableEq, Repr

/-- A `@`-message: timestamp (total seconds) plus text. -/
structure Message where
  timestamp : Nat
  message : List Char
deriving DecidableEq, Repr

/-- A parsed block (`BLOCK_T = dict[Tag, PARAM_T]`):
`visit_block` returns `{kind_tag: params, Tag.MESSAGES: messages-or-None}`,
and `next(iter(block))` recovers the kind tag (it is inserted first).
We model that dict directly as a kind tag, a parameter dict, and messages. -/
structure Block where
  tag : Tag
  params : List (Tag × Val)
  messages : List Message
deriving DecidableEq, Repr

/-! Python `dict` operations on the parameter association list (insertion
order preserved, keys unique, later assignment overwrites in place). -/

/-- `d[k] = v` on a Python dict: replace in place if present, else append. -/
def dictInsert : List (Tag × Val) → Tag → Val → List (Tag × Val)
  | [], k, v => [(k, v)]
  | (k1, v1) :: rest, k, v =>
    if k1 = k then (k, v) :: rest else (k1, v1) :: dictInsert rest k v

/-- `{key: val for param in params for key, val in param.items()}`
(`visit_block`, `zwo/parser.py:186`): build a dict from the flattened
parameter pairs in document order; a repeated key is overwritten. -/
def buildDict (ps : List (Tag × Val)) : List (Tag × Val) :=
  ps.foldl (fun d p => dictInsert d p.1 p.2) []

/-- `d.get(k)` / `d[k]` lookup on a Python dict. -/
def dictGet : List (Tag × Val) → Tag → Option Val
  | [], _ => none
  | (k1, v) :: rest, k => if k1 = k then some v else dictGet rest k

/-- `k in d` on a Python dict. -/
def hasKey (d : List (Tag × Val)) (k : Tag) : Bool :=
  (dictGet d k).isSome

/-! ## Validator / interpreter (`zwo/interpreter.py`) -/

/-- The distinct `ZWOMValidationError`s the validator can raise, one
constructor per `raise` site. -/
inductive VError where
  /-- "ZWOM file must begin with a META block" -/
  | metaFirst
  /-- "<TAG> block missing required keys: <keys>" (`_check_keys`) -/
  | missingKeys (blockTag : Tag) (missing : List Tag)
  /-- "Unknown workout tag: '<tag>'" -/
  | unknownTag (tag : Tag)
  /-- "FTP must be > 0, received: 0" -/
  | ftpZero
  /-- "FTP must be a positive integer, received: '<type>'" -/
  | ftpNotInt
  /-- "Nested block chunk repetition is not supported." -/
  | nestedRepeat
  /-- "START_REPEAT must have an integer REPEAT value." -/
  | repeatNotInt
  /-- "REPEAT must be > 0." -/
  | repeatZero
  /-- "Missing opening START_REPEAT block." -/
  | missingStartRepeat
  /-- "START_REPEAT is missing a matching END_REPEAT." -/
  | missingEndRepeat
  /-- "Power must be > 0, received: 0" -/
  | powerZero
  /-- "An FTP must be specified in the META block to use absolute watts." -/
  | ftpRequired
  /-- "Cadence ranges are only valid for Interval blocks." -/
  | cadenceRangeOnlyIntervals
  /-- "Cadence spec for Interval blocks must be a range." -/
  | cadenceMustBeRange
deriving DecidableEq, Repr

/-- How a whole validation call can fail: with a `ZWOMValidationError`, or —
for an empty block list — with the `IndexError` raised by `raw_blocks[0]`. -/
inductive VFailure where
  | indexError
  | validationError (e : VError)
deriving DecidableEq, Repr

/-- `_check_keys(required, check_tags, block_tag)`: fail when any required
key is absent from the block's parameter dict. -/
def check_keys (required : List Tag) (params : List (Tag × Val)) (blockTag : Tag) :
    Except VError Unit :=
  let missing := required.filter (fun t => ¬ hasKey params t)
  if missing.isEmpty then .ok () else .error (.missingKeys blockTag missing)

/-- Python truthiness of `self._ftp : int | None` (`if not self._ftp`). -/
def ftpFalsy : Option Nat → Bool
  | none => true
  | some n => n == 0

/-- `ZWOMValidator.visit_power`: a bare integer power must be positive and
requires a resolved FTP; a `Range` with a bare-integer endpoint also requires
a resolved FTP. -/
def visit_power (ftp : Option Nat) : Val → Except VError Unit
  | .i n =>
    if n = 0 then .error .powerZero
    else if ftpFalsy ftp then .error .ftpRequired
    else .ok ()
  | .range l r =>
    if ftpFalsy ftp then
      match l, r with
      | .i _, _ => .error .ftpRequired
      | _, .i _ => .error .ftpRequired
      | _, _ => .ok ()
    else .ok ()
  | _ => .ok ()

/-- Is this value a `Range`? (`isinstance(spec, Range)`) -/
def isRange : Val → Bool
  | .range _ _ => true
  | _ => false

/-- `ZWOMValidator.visit_cadence`: a cadence `Range` is only legal inside
`INTERVALS`; inside `INTERVALS` the cadence must be a `Range`. -/
def visit_cadence (v : Val) (blockTag : Tag) : Except VError Unit :=
  if isRange v ∧ blockTag ≠ .INTERVALS then .error .cadenceRangeOnlyIntervals
  else if blockTag = .INTERVALS ∧ ¬ isRange v then .error .cadenceMustBeRange
  else .ok ()

/-- `ZWOMValidator.visit_meta_block`: requires NAME/AUTHOR/DESCRIPTION; an
optional FTP must be a positive integer and becomes the resolved FTP. -/
def visit_meta_block (params : List (Tag × Val)) : Except VError (Option Nat) :=
  match check_keys [.NAME, .AUTHOR, .DESCRIPTION] params .META with
  | .error e => .error e
  | .ok _ =>
    match dictGet params .FTP with
    | none => .ok none
    | some (.i n) => if n = 0 then .error .ftpZero else .ok (some n)
    | some _ => .error .ftpNotInt

/-- The mutable state of `validate_scanned`'s loop: `self._in_repeat`,
`self._n_repeats`, the `repeat_blocks` buffer and the `validated_blocks`
output list.  (`_n_repeats` is unset in Python until the first
`START_REPEAT`; it is initialised to the sentinel `-1` here, which the code
never reads before assigning.) -/
structure ScanState where
  inRepeat : Bool
  nRepeats : Int
  repeatBlocks : List Block
  validated : List Block
deriving DecidableEq, Repr

/-- The per-block-kind dispatch of `validate_scanned`'s `match block_tag`:
schema checks plus the `START_REPEAT`/`END_REPEAT` state updates. -/
def dispatchBlock (st : ScanState) (b : Block) : Except VError ScanState :=
  match b.tag with
  | .FREE =>
    match check_keys [.DURATION] b.params b.tag with
    | .error e => .error e
    | .ok _ => .ok st
  | .SEGMENT =>
    match check_keys [.DURATION, .POWER] b.params b.tag with
    | .error e => .error e
    | .ok _ => .ok st
  | .RAMP | .WARMUP | .COOLDOWN =>
    match check_keys [.DURATION, .POWER] b.params b.tag with
    | .error e => .error e
    | .ok _ => .ok st
  | .INTERVALS =>
    match check_keys [.REPEAT, .DURATION, .POWER] b.params b.tag with
    | .error e => .error e
    | .ok _ => .ok st
  | .START_REPEAT =>
    if st.inRepeat then .error .nestedRepeat
    else
      match check_keys [.REPEAT] b.params b.tag with
      | .error e => .error e
      | .ok _ =>
        match dictGet b.params .REPEAT with
        | some (.i n) =>
          if n = 0 then .error .repeatZero
          else .ok { st with inRepeat := true, nRepeats := (n : Int) }
        | some _ => .error .repeatNotInt
        | none => .error (.missingKeys .START_REPEAT [.REPEAT])
  | .END_REPEAT =>
    if st.inRepeat then .ok { st with inRepeat := false }
    else .error .missingStartRepeat
  | t => .error (.unknownTag t)

/-- The generic parameter loop of `validate_scanned`: dispatch `visit_power`
and `visit_cadence` over the block's parameters, in dict order. -/
def checkParams (ftp : Option Nat) (blockTag : Tag) :
    List (Tag × Val) → Except VError Unit
  | [] => .ok ()
  | (p, v) :: rest =>
    match
      (match p with
       | .POWER => visit_power ftp v
       | .CADENCE => visit_cadence v blockTag
       | _ => .ok ()) with
    | .error e => .error e
    | .ok _ => checkParams ftp blockTag rest

/-- The repeat-buffer bookkeeping at the end of each loop iteration of
`validate_scanned` (`zwo/interpreter.py:73-86`): buffer blocks inside a
repeat region, dump `repeat_blocks * n_repeats` right after it closes, and
otherwise emit the block (repeat markers are never emitted). -/
def bookkeep (st : ScanState) (b : Block) : ScanState :=
  if st.inRepeat then
    if b.tag ≠ .START_REPEAT then
      { st with repeatBlocks := st.repeatBlocks ++ [b] }
    else st
  else if ¬ st.repeatBlocks.isEmpty then
    { st with
      validated := st.validated ++ (List.replicate st.nRepeats.toNat st.repeatBlocks).flatten,
      repeatBlocks := [],
      nRepeats := -1 }
  else if b.tag ≠ .END_REPEAT then
    { st with validated := st.validated ++ [b] }
  else st

/-- One iteration of `validate_scanned`'s loop: kind dispatch, then the
generic parameter checks, then the repeat bookkeeping. -/
def scanStep (ftp : Option Nat) (st : ScanState) (b : Block) : Except VError ScanState :=
  match dispatchBlock st b with
  | .error e => .error e
  | .ok st1 =>
    match checkParams ftp b.tag b.params with
    | .error e => .error e
    | .ok _ => .ok (bookkeep st1 b)

/-- The whole `for block in self.raw_blocks[1:]` loop. -/
def scanBlocks (ftp : Option Nat) (st : ScanState) : List Block → Except VError ScanState
  | [] => .ok st
  | b :: bs =>
    match scanStep ftp st b with
    | .error e => .error e
    | .ok st1 => scanBlocks ftp st1 bs

/-- The scan state entering the loop: `NORMAL`, empty buffer, and
`validated_blocks` initialised with the META block. -/
def initState (metaB : Block) : ScanState :=
  { inRepeat := false, nRepeats := -1, repeatBlocks := [], validated := [metaB] }

/-- `validate_scanned` on a non-empty raw block list: META-first check,
`visit_meta_block`, the scan, and the final unclosed-repeat check.  Returns
the validated blocks together with the resolved FTP (`self._ftp`). -/
def validateFrom (b0 : Block) (rest : List Block) :
    Except VError (List Block × Option Nat) :=
  if b0.tag = .META then
    match visit_meta_block b0.params with
    | .error e => .error e
    | .ok ftp =>
      match scanBlocks ftp (initState b0) rest with
      | .error e => .error e
      | .ok stF =>
        if stF.inRepeat then .error .missingEndRepeat
        else .ok (stF.validated, ftp)
  else .error .metaFirst

/-- `ZWOMValidator(raw_blocks)` / `validate_scanned`: on an empty list the
very first access `self.raw_blocks[0]` raises `IndexError`; otherwise the
result is the validated block list plus the resolved FTP, or a
`ZWOMValidationError`. -/
def validate_scanned : List Block → Except VFailure (List Block × Option Nat)
  | [] => .error .indexError
  | b0 :: rest =>
    match validateFrom b0 rest with
    | .error e => .error (.validationError e)
    | .ok x => .ok x

/-! ## Serializer (`zwo/serialize.py`)

XML attribute values are `str(...)` results in Python.  Decimal renderings of
integers and of `Percentage`/`PowerZone` are modelled exactly (`.txt`); the
float division `str(power / self.ftp)` is modelled by the exact rational it
denotes (`.num`); `str()` of a structured object (only reachable outside the
validated paths) keeps the object itself (`.objRepr`). -/

/-- How serializer routines can crash: the `raise ValueError("Type
narrowing, ...")` guards, and a `KeyError` from a direct `params[tag]`
lookup on a missing key. -/
inductive SerErr where
  | valueError
  | keyError
deriving DecidableEq, Repr

/-- A serialized XML attribute value. -/
inductive AttrV where
  | txt (s : List Char)
  | num (q : ℚ)
  | objRepr (v : Val)
deriving DecidableEq, Repr

/-- Zero-padded 3-digit rendering used for the fractional part of a
`Percentage`. -/
def pad3 (n : Nat) : List Char :=
  if n < 10 then '0' :: '0' :: digitsOf n
  else if n < 100 then '0' :: digitsOf n
  else digitsOf n

/-- `Percentage.__str__`: `f"{value / 100:0.3f}"`, e.g. `65 ↦ "0.650"`.
The format is exact here because `value / 100` has at most two decimal
places. -/
def pctChars (p : Nat) : List Char :=
  digitsOf (p / 100) ++ '.' :: pad3 (p % 100 * 10)

/-- `str()` of a `RANGE_T` scalar: ints and Durations render as decimal
integers, `Percentage`/`PowerZone` as their 3-decimal fraction. -/
def pyStrRVal : RVal → List Char
  | .i n => digitsOf n
  | .dur s => digitsOf s
  | .pct p => pctChars p
  | .zone z => pctChars (zonePct z)

/-- `str()` of any parameter value, as an attribute value. -/
def pyStrVal : Val → AttrV
  | .i n => .txt (digitsOf n)
  | .dur s => .txt (digitsOf s)
  | .pct p => .txt (pctChars p)
  | .zone z => .txt (pctChars (zonePct z))
  | .str s => .txt s
  | .range l r => .objRepr (.range l r)

/-- Python truthiness of a parameter value (`if add_cadence and (cadence :=
params.get(Tag.CADENCE))`): `0` and `""` are falsy, every dataclass instance
is truthy. -/
def valTruthy : Val → Bool
  | .i n => n != 0
  | .str s => !s.isEmpty
  | _ => true

/-- `Workout.serialize_power`: a bare int renders as `str(power / self.ftp)`
(a `ValueError` fires first when no FTP is around); anything else renders
via its own `__str__`. -/
def serialize_power (ftp : Option Nat) : RVal → Except SerErr AttrV
  | .i n =>
    match ftp with
    | none => .error .valueError
    | some f => .ok (.num ((n : ℚ) / (f : ℚ)))
  | .pct p => .ok (.txt (pctChars p))
  | .zone z => .ok (.txt (pctChars (zonePct z)))
  | .dur s => .ok (.txt (digitsOf s))

/-- The `isinstance(power, (int, Percentage, PowerZone))` narrowing in
`_build_simple_block`. -/
def asPowerScalar : Val → Except SerErr RVal
  | .i n => .ok (.i n)
  | .pct p => .ok (.pct p)
  | .zone z => .ok (.zone z)
  | _ => .error .valueError

/-- `Workout._build_simple_block`: the generic attribute builder.  The five
flags are `add_duration`, `add_cadence`, `add_power`, `add_flat_road`,
`add_pace`, in the source's parameter order; attributes are emitted in the
source's `setAttribute` order. -/
def build_simple_block (ftp : Option Nat) (params : List (Tag × Val))
    (addDuration addCadence addPower addFlatRoad addPace : Bool) :
    Except SerErr (List (String × AttrV)) :=
  match
    (if addDuration then
      match dictGet params .DURATION with
      | none => .error .keyError
      | some v => .ok [("Duration", pyStrVal v)]
     else .ok ([] : List (String × AttrV)) :
     Except SerErr (List (String × AttrV))) with
  | .error e => .error e
  | .ok a1 =>
    let a2 :=
      if addCadence then
        match dictGet params .CADENCE with
        | some c => if valTruthy c then a1 ++ [("Cadence", pyStrVal c)] else a1
        | none => a1
      else a1
    match
      (if addPower then
        match dictGet params .POWER with
        | none => .error .keyError
        | some v =>
          match asPowerScalar v with
          | .error e => .error e
          | .ok p =>
            match serialize_power ftp p with
            | .error e => .error e
            | .ok a => .ok (a2 ++ [("Power", a)])
       else .ok a2 :
       Except SerErr (List (String × AttrV))) with
    | .error e => .error e
    | .ok a3 =>
      let a4 := if addFlatRoad then a3 ++ [("FlatRoad", .txt "0".data)] else a3
      .ok (if addPace then a4 ++ [("pace", .txt "0".data)] else a4)

/-- `Workout.serialize_ramp`: `PowerLow`/`PowerHigh` from the POWER `Range`
endpoints, which must not be `Duration`s. -/
def serialize_ramp (ftp : Option Nat) (params : List (Tag × Val)) :
    Except SerErr (List (String × AttrV)) :=
  match dictGet params .POWER with
  | none => .error .keyError
  | some v =>
    match v with
    | .range l r =>
      match l, r with
      | .dur _, _ => .error .valueError
      | _, .dur _ => .error .valueError
      | l, r =>
        match serialize_power ftp l with
        | .error e => .error e
        | .ok al =>
          match serialize_power ftp r with
          | .error e => .error e
          | .ok ar => .ok [("PowerLow", al), ("PowerHigh", ar)]
    | _ => .error .valueError

/-- `Workout.serialize_interval` (`zwo/serialize.py:180-210`): `Repeat`,
`OnDuration`/`OffDuration`, `OnPower`/`OffPower`, then the cadence range.
NOTE the faithful translation of lines 202-204: `params.get(Tag.CADENCE)`
may be `None`, and `if not isinstance(cadence_range, Range): raise
ValueError(...)` then fires, so a missing CADENCE raises. -/
def serialize_interval (ftp : Option Nat) (params : List (Tag × Val)) :
    Except SerErr (List (String × AttrV)) :=
  match dictGet params .REPEAT with
  | none => .error .keyError
  | some rep =>
    let a1 := [("Repeat", pyStrVal rep)]
    match dictGet params .DURATION with
    | none => .error .keyError
    | some dv =>
      match dv with
      | .range dl dr =>
        let a2 := a1 ++ [("OnDuration", .txt (pyStrRVal dl)), ("OffDuration", .txt (pyStrRVal dr))]
        match dictGet params .POWER with
        | none => .error .keyError
        | some pv =>
          match pv with
          | .range pl pr =>
            match pl, pr with
            | .dur _, _ => .error .valueError
            | _, .dur _ => .error .valueError
            | pl, pr =>
              match serialize_power ftp pl with
              | .error e => .error e
              | .ok aOn =>
                match serialize_power ftp pr with
                | .error e => .error e
                | .ok aOff =>
                  let a3 := a2 ++ [("OnPower", aOn), ("OffPower", aOff)]
                  match dictGet params .CADENCE with
                  | some (.range cl cr) =>
                    .ok (a3 ++ [("Cadence", .txt (pyStrRVal cl)),
                                ("CadenceResting", .txt (pyStrRVal cr))])
                  | _ => .error .valueError
          | _ => .error .valueError
      | _ => .error .valueError

/-- The element attributes produced for a validated INTERVALS block: the
`_build_simple_block(..., add_duration=False, add_cadence=False,
add_pace=True)` base followed by `serialize_interval`'s additions. -/
def intervalElementAttrs (ftp : Option Nat) (params : List (Tag × Val)) :
    Except SerErr (List (String × AttrV)) :=
  match build_simple_block ftp params false false false false true with
  | .error e => .error e
  | .ok base =>
    match serialize_interval ftp params with
    | .error e => .error e
    | .ok extra => .ok (base ++ extra)

/-- `_classify_ramp_type(block_idx, n_blocks)`: the positional element-name
heuristic for ramp-like blocks. -/
def _classify_ramp_type (blockIdx nBlocks : Nat) : String :=
  if blockIdx = 1 then "WarmUp"
  else if blockIdx = nBlocks then "Cooldown"
  else "Ramp"

/-- The element name `serialize_workout_blocks` chooses for a body block at
1-indexed position `idx` out of `nBlocks` (`BLOCK_MAPPING` for the fixed
kinds, `_classify_ramp_type` for ramp kinds, nothing for the unreachable
`case _`). -/
def zwiftKeyFor (t : Tag) (idx nBlocks : Nat) : Option String :=
  match t with
  | .FREE => some "FreeRide"
  | .SEGMENT => some "SteadyState"
  | .INTERVALS => some "IntervalsT"
  | .RAMP | .WARMUP | .COOLDOWN => some (_classify_ramp_type idx nBlocks)
  | _ => none

/-- Helper for `bodyElementNames`: element names for the tail of the body
starting at 1-indexed position `idx`. -/
def namesFrom (idx total : Nat) : List Block → List (Option String)
  | [] => []
  | b :: bs => zwiftKeyFor b.tag idx total :: namesFrom (idx + 1) total bs

/-- The element names chosen by `serialize_workout_blocks` for the body
blocks (the blocks after META), via `enumerate(blocks, start=1)` and
`n_blocks = len(blocks)`. -/
def bodyElementNames (blocks : List Block) : List (Option String) :=
  namesFrom 1 blocks.length blocks

/-! ## Grammar matchers (`RAW_GRAMMAR`, `zwo/parser.py:13-35`)

Each rule of the parsimonious PEG is embedded as a matcher from the input
character list to the matched structure plus the unconsumed suffix.
Parsimonious semantics kept: ordered choice (`/`) tries alternatives left to
right with backtracking, regexes are greedy, a quantifier loop stops at the
first failed match or after a zero-length match (and does not run at end of
input), `OneOrMore` needs at least one child, and `Grammar.parse` requires
the whole input to be consumed. -/

/-- A zone literal as matched: `"Z" number` keeps the raw digit text
(because `visit_zone` looks the *text* up in the `PowerZone` enum), or
`"SS"`. -/
inductive CZone where
  | z (digits : List Char)
  | ss
deriving DecidableEq, Repr

/-- A matched `rangeval` scalar: `duration / numeric / zone`. -/
inductive CScalar where
  | dur (minutes seconds : Nat)
  | pct (n : Nat)
  | num (n : Nat)
  | zn (z : CZone)
deriving DecidableEq, Repr

/-- A matched assignment value: `string / range / rangeval`. -/
inductive CVal where
  | strv (raw : List Char)
  | rng (left right : CScalar)
  | sc (s : CScalar)
deriving DecidableEq, Repr

/-- A matched `params` node: a `message` or a tag/value assignment (tag kept
as raw text, `visit_tag` resolves it later). -/
inductive CParam where
  | msg (minutes seconds : Nat) (raw : List Char)
  | assign (tagTxt : List Char) (v : CVal)
deriving DecidableEq, Repr

/-- One iteration of a block body: `(comment / params) / elws`. -/
inductive CItem where
  | cmt
  | prm (p : CParam)
  | white
deriving DecidableEq, Repr

/-- A matched `block`: its tag text and body items. -/
structure CBlock where
  tagTxt : List Char
  items : List CItem
deriving DecidableEq, Repr

/-- Match one literal character. -/
def chomp (c : Char) : List Char → Option (Unit × List Char)
  | [] => none
  | x :: xs => if x = c then some ((), xs) else none

/-- Match a literal character sequence. -/
def chompSeq : List Char → List Char → Option (Unit × List Char)
  | [], s => some ((), s)
  | c :: cs, s =>
    match chomp c s with
    | none => none
    | some (_, r) => chompSeq cs r

/-- `ws = ~"\s*"`: always matches, consuming the maximal whitespace run.
(`elws = ws / emptyline` collapses to `ws`, since `ws` never fails.) -/
def wsDrop (s : List Char) : List Char := s.dropWhile isPySpace

/-- `comment = ~r"\;[^\r\n]*"`. -/
def commentMatch : List Char → Option (Unit × List Char)
  | [] => none
  | x :: xs =>
    if x = ';' then some ((), xs.dropWhile (fun c => !(c = '\r' || c = '\n')))
    else none

/-- `tag = ~"[A-Z_]+"`, keeping the matched text. -/
def tagMatch (s : List Char) : Option (List Char × List Char) :=
  let t := s.takeWhile isTagChar
  if t.isEmpty then none else some (t, s.dropWhile isTagChar)

/-- `number = ~"\d+"` composed with `visit_number`'s `int(node.text)`. -/
def numberMatch (s : List Char) : Option (Nat × List Char) :=
  let ds := s.takeWhile isDigitChar
  if ds.isEmpty then none else some (parseDigits ds, s.dropWhile isDigitChar)

/-- `duration = number ":" number` (kept as the two numbers;
`Duration.from_node` later computes `minutes*60+seconds`). -/
def durationMatch (s : List Char) : Option ((Nat × Nat) × List Char) :=
  match numberMatch s with
  | none => none
  | some (m, r1) =>
    match chomp ':' r1 with
    | none => none
    | some (_, r2) =>
      match numberMatch r2 with
      | none => none
      | some (sec, r3) => some ((m, sec), r3)

/-- `percent = number "%"` composed with `Percentage.from_node`. -/
def percentMatch (s : List Char) : Option (Nat × List Char) :=
  match numberMatch s with
  | none => none
  | some (n, r1) =>
    match chomp '%' r1 with
    | none => none
    | some (_, r2) => some (n, r2)

/-- `zone = ("Z" number) / "SS"`, keeping the digit text of the `Z` form. -/
def zoneMatch (s : List Char) : Option (CZone × List Char) :=
  match
    (match chomp 'Z' s with
     | none => none
     | some (_, r1) =>
       let ds := r1.takeWhile isDigitChar
       if ds.isEmpty then none
       else some (CZone.z ds, r1.dropWhile isDigitChar)) with
  | some x => some x
  | none =>
    match chompSeq ['S', 'S'] s with
    | none => none
    | some (_, r) => some (CZone.ss, r)

/-- `numeric = percent / number`. -/
def numericMatch (s : List Char) : Option (CScalar × List Char) :=
  match percentMatch s with
  | some (n, r) => some (.pct n, r)
  | none =>
    match numberMatch s with
    | none => none
    | some (n, r) => some (.num n, r)

/-- `rangeval = duration / numeric / zone`. -/
def rangevalMatch (s : List Char) : Option (CScalar × List Char) :=
  match durationMatch s with
  | some ((m, sec), r) => some (.dur m sec, r)
  | none =>
    match numericMatch s with
    | some x => some x
    | none =>
      match zoneMatch s with
      | none => none
      | some (z, r) => some (.zn z, r)

/-- `range = rangeval ws "->" ws rangeval`. -/
def rangeMatch (s : List Char) : Option ((CScalar × CScalar) × List Char) :=
  match rangevalMatch s with
  | none => none
  | some (l, r1) =>
    match chompSeq ['-', '>'] (wsDrop r1) with
    | none => none
    | some (_, r3) =>
      match rangevalMatch (wsDrop r3) with
      | none => none
      | some (rr, r5) => some ((l, rr), r5)

/-- `string = ~'"[^\"]+"'`: a quote, one or more non-quote characters, a
quote; yields the inner text (Python later strips the quotes). -/
def stringMatch (s : List Char) : Option (List Char × List Char) :=
  match chomp '"' s with
  | none => none
  | some (_, r1) =>
    let inner := r1.takeWhile (fun c => !(c = '"'))
    if inner.isEmpty then none
    else
      match chomp '"' (r1.dropWhile (fun c => !(c = '"'))) with
      | none => none
      | some (_, r2) => some (inner, r2)

/-- `message = "@" ws duration ws string`. -/
def messageMatch (s : List Char) : Option ((Nat × Nat × List Char) × List Char) :=
  match chomp '@' s with
  | none => none
  | some (_, r1) =>
    match durationMatch (wsDrop r1) with
    | none => none
    | some ((m, sec), r3) =>
      match stringMatch (wsDrop r3) with
      | none => none
      | some (txt, r5) => some ((m, sec, txt), r5)

/-- `value = tag ws (string / range / rangeval)`. -/
def valueMatch (s : List Char) : Option ((List Char × CVal) × List Char) :=
  match tagMatch s with
  | none => none
  | some (t, r1) =>
    let r2 := wsDrop r1
    match stringMatch r2 with
    | some (txt, r3) => some ((t, .strv txt), r3)
    | none =>
      match rangeMatch r2 with
      | some ((l, rr), r3) => some ((t, .rng l rr), r3)
      | none =>
        match rangevalMatch r2 with
        | some (sc, r3) => some ((t, .sc sc), r3)
        | none => none

/-- `params = (message / value) ","?`. -/
def paramsMatch (s : List Char) : Option (CParam × List Char) :=
  match
    (match messageMatch s with
     | some ((m, sec, txt), r) => some (CParam.msg m sec txt, r)
     | none =>
       match valueMatch s with
       | none => none
       | some ((t, v), r) => some (CParam.assign t v, r)) with
  | none => none
  | some (p, r1) =>
    match chomp ',' r1 with
    | some (_, r2) => some (p, r2)
    | none => some (p, r1)

/-- One body iteration `(comment / params) / elws`; total, because `elws`
never fails (possibly matching zero characters). -/
def bodyItemMatch (s : List Char) : CItem × List Char :=
  match commentMatch s with
  | some (_, r) => (.cmt, r)
  | none =>
    match paramsMatch s with
    | some (p, r) => (.prm p, r)
    | none => (.white, wsDrop s)

/-- The `((comment / params) / elws)+` loop of `block`: parsimonious runs no
iteration at end of input, and stops after a zero-length match. -/
def bodyGo : Nat → List Char → List CItem × List Char
  | 0, s => ([], s)
  | fuel + 1, s =>
    if s.isEmpty then ([], [])
    else
      let (it, rest) := bodyItemMatch s
      if rest.length < s.length then
        let (more, r) := bodyGo fuel rest
        (it :: more, r)
      else ([it], rest)

/-- Entry point with enough fuel for the whole input (each iteration that
continues has consumed at least one character). -/
def bodyLoop (s : List Char) : List CItem × List Char :=
  bodyGo (s.length + 1) s

/-- `block = tag ws "{" ((comment / params) / elws)+ "}"`. -/
def blockMatch (s : List Char) : Option (CBlock × List Char) :=
  match tagMatch s with
  | none => none
  | some (t, r1) =>
    match chomp '{' (wsDrop r1) with
    | none => none
    | some (_, r3) =>
      let (items, r4) := bodyLoop r3
      if items.isEmpty then none
      else
        match chomp '}' r4 with
        | none => none
        | some (_, r5) => some (⟨t, items⟩, r5)

/-- `comment / block` at document level: `none` is a comment chunk. -/
def chunkMatch (s : List Char) : Option (Option CBlock × List Char) :=
  match commentMatch s with
  | some (_, r) => some (none, r)
  | none =>
    match blockMatch s with
    | none => none
    | some (b, r) => some (some b, r)

/-- The `((comment / block) elws*)+` loop of `workout`. -/
def workoutGo : Nat → List Char → List (Option CBlock) × List Char
  | 0, s => ([], s)
  | fuel + 1, s =>
    if s.isEmpty then ([], [])
    else
      match chunkMatch s with
      | none => ([], s)
      | some (c, r1) =>
        let r2 := wsDrop r1
        if r2.length < s.length then
          let (more, r) := workoutGo fuel r2
          (c :: more, r)
        else ([c], r2)

/-- Entry point with enough fuel for the whole input. -/
def workoutLoop (s : List Char) : List (Option CBlock) × List Char :=
  workoutGo (s.length + 1) s

/-- `workout = ((comment / block) elws*)+ / elws`: when the loop produces no
chunk the second alternative (`ws`) consumes a leading whitespace run. -/
def workoutMatch (s : List Char) : List (Option CBlock) × List Char :=
  let (chunks, r) := workoutLoop s
  if chunks.isEmpty then ([], s.dropWhile isPySpace) else (chunks, r)

/-! ## Tree visitor (`ZWOVisitor`, `zwo/parser.py:162-231`) -/

/-- How `parse_src` can fail: a grammar mismatch (parsimonious `ParseError`
or `IncompleteParseError`), or an exception inside the visitor (a `KeyError`
from `Tag[...]`/`PowerZone[...]`, surfaced as a `VisitationError`). -/
inductive PFail where
  | syntaxError
  | visitationError
deriving DecidableEq, Repr

/-- `visit_tag`: `Tag[node.text]`, a lookup by enum member name. -/
def tagOfText (t : List Char) : Option Tag :=
  if t = "AUTHOR".data then some .AUTHOR
  else if t = "CADENCE".data then some .CADENCE
  else if t = "COOLDOWN".data then some .COOLDOWN
  else if t = "DESCRIPTION".data then some .DESCRIPTION
  else if t = "DURATION".data then some .DURATION
  else if t = "FREE".data then some .FREE
  else if t = "FTP".data then some .FTP
  else if t = "INTERVALS".data then some .INTERVALS
  else if t = "META".data then some .META
  else if t = "NAME".data then some .NAME
  else if t = "POWER".data then some .POWER
  else if t = "RAMP".data then some .RAMP
  else if t = "REPEAT".data then some .REPEAT
  else if t = "SEGMENT".data then some .SEGMENT
  else if t = "TAGS".data then some .TAGS
  else if t = "WARMUP".data then some .WARMUP
  else if t = "MESSAGES".data then some .MESSAGES
  else if t = "START_REPEAT".data then some .START_REPEAT
  else if t = "END_REPEAT".data then some .END_REPEAT
  else none

/-- `visit_zone`: `PowerZone[node.text]`, a lookup by enum member name. -/
def zoneOfC : CZone → Option PowerZone
  | .ss => some .SS
  | .z ds =>
    if ds = "1".data then some .Z1
    else if ds = "2".data then some .Z2
    else if ds = "3".data then some .Z3
    else if ds = "4".data then some .Z4
    else if ds = "5".data then some .Z5
    else if ds = "6".data then some .Z6
    else if ds = "7".data then some .Z7
    else none

/-- Split on newline characters (Python `text.split('\n')`). -/
def splitNl : List Char → List (List Char)
  | [] => [[]]
  | c :: rest =>
    if c = '\n' then [] :: splitNl rest
    else
      match splitNl rest with
      | [] => [[c]]
      | l :: ls => (c :: l) :: ls

/-- Re-join lines with newlines (inverse of `splitNl`). -/
def joinNl : List (List Char) → List Char
  | [] => []
  | [l] => l
  | l :: ls => l ++ '\n' :: joinNl ls

/-- Space or tab, the characters `textwrap.dedent` treats as indentation. -/
def isSpaceTab (c : Char) : Bool := c = ' ' || c = '\t'

/-- Longest common prefix of two character lists. -/
def commonPre : List Char → List Char → List Char
  | [], _ => []
  | _, [] => []
  | x :: xs, y :: ys => if x = y then x :: commonPre xs ys else []

/-- Does `p` start the list `l`? -/
def startsWith : List Char → List Char → Bool
  | [], _ => true
  | _ :: _, [] => false
  | p :: ps, c :: cs => p = c && startsWith ps cs

/-- Model of `textwrap.dedent`: normalize whitespace-only lines to empty,
compute the longest common space/tab margin of the content lines, and strip
it from every line that carries it. -/
def pyDedent (cs : List Char) : List Char :=
  let lines := (splitNl cs).map (fun l => if !l.isEmpty && l.all isSpaceTab then [] else l)
  let indents := lines.filterMap
    (fun l => if (l.dropWhile isSpaceTab).isEmpty then none else some (l.takeWhile isSpaceTab))
  let margin :=
    match indents with
    | [] => []
    | i :: is => is.foldl commonPre i
  joinNl (lines.map (fun l => if startsWith margin l then l.drop margin.length else l))

/-- `visit_duration` / scalar visits: turn a matched scalar into a `Val`
(`Duration.from_node` computes `minutes*60 + seconds`; a zone name outside
the enum raises). -/
def visitScalar : CScalar → Except PFail Val
  | .dur m s => .ok (.dur (m * 60 + s))
  | .pct n => .ok (.pct n)
  | .num n => .ok (.i n)
  | .zn z =>
    match zoneOfC z with
    | some pz => .ok (.zone pz)
    | none => .error .visitationError

/-- The same conversion targeted at `Range` endpoints. -/
def rvalOfScalar : CScalar → Except PFail RVal
  | .dur m s => .ok (.dur (m * 60 + s))
  | .pct n => .ok (.pct n)
  | .num n => .ok (.i n)
  | .zn z =>
    match zoneOfC z with
    | some pz => .ok (.zone pz)
    | none => .error .visitationError

/-- `visit_value`'s payload: a dedented string (`visit_string`), a `Range`
(`visit_range` / `Range.from_node`), or a scalar. -/
def visitCVal : CVal → Except PFail Val
  | .strv raw => .ok (.str (pyDedent raw))
  | .sc s => visitScalar s
  | .rng l r =>
    match rvalOfScalar l with
    | .error e => .error e
    | .ok lv =>
      match rvalOfScalar r with
      | .error e => .error e
      | .ok rv => .ok (.range lv rv)

/-- The first `deep_flatten(..., key_type=dict)` pass of `visit_block`: the
assignment pairs of a block body, in document order, each tag/value visited. -/
def collectParams : List CItem → Except PFail (List (Tag × Val))
  | [] => .ok []
  | .prm (.assign txt v) :: rest =>
    match tagOfText txt with
    | none => .error .visitationError
    | some t =>
      match visitCVal v with
      | .error e => .error e
      | .ok val =>
        match collectParams rest with
        | .error e => .error e
        | .ok ps => .ok ((t, val) :: ps)
  | _ :: rest => collectParams rest

/-- The second `deep_flatten(..., key_type=Message)` pass of `visit_block`:
the messages of a block body, in document order (`visit_message` /
`Message.from_node`; the text goes through `visit_string`'s dedent). -/
def collectMsgs : List CItem → List Message
  | [] => []
  | .prm (.msg m s txt) :: rest => ⟨m * 60 + s, pyDedent txt⟩ :: collectMsgs rest
  | _ :: rest => collectMsgs rest

/-- `visit_block`: resolve the block tag, build the parameter dict (later
assignments of the same key overwrite earlier ones), attach the messages. -/
def visitBlock (cb : CBlock) : Except PFail Block :=
  match tagOfText cb.tagTxt with
  | none => .error .visitationError
  | some t =>
    match collectParams cb.items with
    | .error e => .error e
    | .ok ps => .ok ⟨t, buildDict ps, collectMsgs cb.items⟩

/-- `visit_workout`'s per-chunk extraction: comments are dropped, blocks are
visited in order. -/
def visitChunks : List (Option CBlock) → Except PFail (List Block)
  | [] => .ok []
  | none :: rest => visitChunks rest
  | some cb :: rest =>
    match visitBlock cb with
    | .error e => .error e
    | .ok b =>
      match visitChunks rest with
      | .error e => .error e
      | .ok bs => .ok (b :: bs)

/-- `parse_src(src)`: match the `workout` rule against the whole input
(anything unconsumed is an `IncompleteParseError`), then run the visitor —
which returns `[]` straight away when the document text strips to empty. -/
def parse_src (s : List Char) : Except PFail (List Block) :=
  let (chunks, rest) := workoutMatch s
  if !rest.isEmpty then .error .syntaxError
  else if s.all isPySpace then .ok []
  else visitChunks chunks

/-! ## Concrete example inputs used by witnesses and counterexamples -/

/-- A well-formed META block: `META {NAME "a", AUTHOR "b", DESCRIPTION "c"}`. -/
def exMeta : Block :=
  ⟨.META, [(.NAME, .str "a".data), (.AUTHOR, .str "b".data), (.DESCRIPTION, .str "c".data)], []⟩

/-- `FREE {POWER 165}` as parsed. -/
def exFree165 : Block := ⟨.FREE, [(.POWER, .i 165)], []⟩

/-- `SEGMENT {DURATION 0:30, POWER 65%}` as parsed. -/
def exSeg : Block := ⟨.SEGMENT, [(.DURATION, .dur 30), (.POWER, .pct 65)], []⟩

/-- `START_REPEAT {REPEAT 2}` as parsed. -/
def exStart2 : Block := ⟨.START_REPEAT, [(.REPEAT, .i 2)], []⟩

/-- `END_REPEAT {}` as parsed. -/
def exEnd : Block := ⟨.END_REPEAT, [], []⟩

/-- A validated INTERVALS parameter dict with no CADENCE key. -/
def exIntervalNoCad : List (Tag × Val) :=
  [(.REPEAT, .i 3), (.DURATION, .range (.dur 60) (.dur 30)),
   (.POWER, .range (.pct 120) (.pct 60))]

/-! ## Dict lemmas (duplicate parameter tags, claim C10) -/

theorem dictGet_dictInsert_self (d : List (Tag × Val)) (k : Tag) (v : Val) :
    dictGet (dictInsert d k v) k = some v := by
  induction d with
  | nil => simp [dictInsert, dictGet]
  | cons p rest ih =>
    obtain ⟨k1, v1⟩ := p
    by_cases h : k1 = k
    · simp [dictInsert, h, dictGet]
    · simp [dictInsert, h, dictGet, ih]

theorem dictGet_dictInsert_ne (d : List (Tag × Val)) (k k1 : Tag) (v : Val)
    (h : k1 ≠ k) : dictGet (dictInsert d k1 v) k = dictGet d k := by
  induction d with
  | nil => simp [dictInsert, dictGet, h]
  | cons p rest ih =>
    obtain ⟨k2, v2⟩ := p
    by_cases h2 : k2 = k1
    · simp [dictInsert, h2, dictGet, h]
    · simp [dictInsert, h2, dictGet, ih]

theorem dictGet_fold_ne (ps : List (Tag × Val)) (t : Tag)
    (h : ∀ p ∈ ps, p.1 ≠ t) :
    ∀ d0, dictGet (ps.foldl (fun d p => dictInsert d p.1 p.2) d0) t = dictGet d0 t := by
  induction ps with
  | nil => intro d0; rfl
  | cons p rest ih =>
    intro d0
    have hp : p.1 ≠ t := h p (by simp)
    have hrest : ∀ q ∈ rest, q.1 ≠ t := fun q hq => h q (by simp [hq])
    simp only [List.foldl_cons]
    rw [ih hrest, dictGet_dictInsert_ne _ _ _ _ hp]

/-- Claim C10: a parameter tag assigned more than once within a block is not
rejected: `visit_block`'s dict construction keeps the value of the last
(rightmost) occurrence, silently discarding the earlier ones; and such a
source text parses end to end without error (shown on
`FREE {DURATION 0:30, DURATION 1:00}`, which parses to a single FREE block
whose DURATION is the 60-second value of the second assignment). -/
theorem c10_duplicate_params_last_wins :
    (∀ (ps1 ps2 : List (Tag × Val)) (t : Tag) (v : Val),
      (∀ p ∈ ps2, p.1 ≠ t) →
      dictGet (buildDict (ps1 ++ (t, v) :: ps2)) t = some v) ∧
    parse_src "FREE {DURATION 0:30, DURATION 1:00}".data =
      .ok [⟨.FREE, [(.DURATION, .dur 60)], []⟩] := by
  constructor
  · intro ps1 ps2 t v h
    unfold buildDict
    rw [List.foldl_append, List.foldl_cons]
    rw [dictGet_fold_ne ps2 t h, dictGet_dictInsert_self]
  · rfl

/-- Claim C10 witness: the duplicated `DURATION` tag resolves to the second
value. -/
theorem c10_witness :
    dictGet (buildDict [(.DURATION, .dur 30), (.DURATION, .dur 60)]) .DURATION =
      some (.dur 60) :=
  c10_duplicate_params_last_wins.1 [(.DURATION, .dur 30)] [] .DURATION (.dur 60) (by simp)

/-! ## Claim C2: `FREE {POWER 165}` with no META block -/

/-- Claim C2 counterexample: on `[FREE {POWER 165}]` validation does NOT
fail with the FTP-required error — the claim as stated is false at this
input. -/
theorem c2_counterexample :
    (validate_scanned [exFree165] = .error (.validationError .ftpRequired)) = False := by
  rw [show validate_scanned [exFree165] = .error (.validationError .metaFirst) from rfl]
  simp

/-- Claim C2 (amended): the single-block input `FREE {POWER 165}` fails
validation, but with the ValidationError demanding that a ZWOM file begin
with a META block — the META-first check runs before any power/FTP check
ever happens. -/
theorem c2_amended_meta_first :
    validate_scanned [exFree165] = .error (.validationError .metaFirst) := rfl

/-! ## Claim C6: validation of the empty block sequence -/

/-- Claim C6: contrary to the two-error-kinds contract, validating the empty
block sequence (what an empty document parses to) does not produce a
`ValidationError` at all — `self.raw_blocks[0]` raises `IndexError`. -/
theorem c6_empty_validation_crash :
    validate_scanned [] = .error .indexError := rfl

/-! ## Claim C3: INTERVALS serialization without CADENCE -/

/-- Claim C3: an INTERVALS parameter dict with no CADENCE key passes
validation (first conjunct), yet `serialize_interval` raises `ValueError`
on it (second conjunct) instead of omitting the Cadence attributes, because
`params.get(Tag.CADENCE)` returns `None` and the `isinstance(...)` guard
then raises; the very same dict with a cadence range added serializes fine
(third conjunct). -/
theorem c3_interval_missing_cadence_crashes :
    (validate_scanned [exMeta, ⟨.INTERVALS, exIntervalNoCad, []⟩]).isOk = true ∧
    intervalElementAttrs none exIntervalNoCad = .error .valueError ∧
    (intervalElementAttrs none
      (exIntervalNoCad ++ [(.CADENCE, .range (.i 80) (.i 100))])).isOk = true :=
  ⟨rfl, rfl, rfl⟩

/-! ## Claim C4: bare-integer POWER values and FTP -/

/-- Claim C4 counterexample: the bare-integer POWER value `0` fails
validation even with an FTP resolved (`Power must be > 0`), so "the same
value with FTP resolved always succeeds" is false at 0. -/
theorem c4_counterexample :
    (visit_power (some 200) (Val.i 0) = .ok ()) = False := by
  rw [show visit_power (some 200) (Val.i 0) = .error .powerZero from rfl]
  simp

/-- Claim C4 (amended): every bare-integer POWER value fails validation when
no FTP is resolved (value 0 with the power-must-be-positive error, any other
value with the FTP-required error); every *positive* bare-integer value with
a resolved (hence positive) FTP passes `visit_power` and is rendered by
`serialize_power` as the exact quotient `value / ftp`. -/
theorem c4_int_power_ftp :
    (∀ n : Nat, visit_power none (Val.i n) =
      .error (if n = 0 then VError.powerZero else VError.ftpRequired)) ∧
    (∀ n f : Nat, n ≠ 0 → f ≠ 0 →
      visit_power (some f) (Val.i n) = .ok () ∧
      serialize_power (some f) (.i n) = .ok (.num ((n : ℚ) / (f : ℚ)))) := by
  constructor
  · intro n
    by_cases h : n = 0 <;> simp [visit_power, ftpFalsy, h]
  · intro n f hn hf
    have hfb : (f == 0) = false := by simpa using hf
    exact ⟨by simp [visit_power, ftpFalsy, hn, hfb], rfl⟩

/-- Claim C4 witness: POWER 165 with FTP 200 validates and renders as
`165 / 200`. -/
theorem c4_witness :
    visit_power (some 200) (Val.i 165) = .ok () ∧
    serialize_power (some 200) (.i 165) =
      .ok (.num (((165 : Nat) : ℚ) / ((200 : Nat) : ℚ))) :=
  c4_int_power_ftp.2 165 200 (by decide) (by decide)

/-! ## Claim C8: positional classification of ramp-like blocks -/

theorem namesFrom_get (bs : List Block) :
    ∀ (k total i : Nat),
      (namesFrom k total bs)[i]? = (bs[i]?).map (fun b => zwiftKeyFor b.tag (k + i) total) := by
  induction bs with
  | nil => intro k total i; simp [namesFrom]
  | cons b rest ih =>
    intro k total i
    cases i with
    | zero => simp [namesFrom]
    | succ j =>
      have harg : k + 1 + j = k + (j + 1) := by omega
      simp only [namesFrom, List.getElem?_cons_succ, ih (k + 1) total j, harg]

/-- Claim C8: for every validated body-block list, a RAMP/WARMUP/COOLDOWN
block at 0-based index `i` (1-indexed position `i+1`) is serialized under
the element name `_classify_ramp_type (i+1) n`, which depends on position
only: position 1 is "WarmUp", the last position (when it is not position 1)
is "Cooldown", anything else is "Ramp"; and a block that is both first and
only is "WarmUp" (the position-1 check takes precedence). -/
theorem c8_ramp_classification_positional :
    (∀ (blocks : List Block) (i : Nat) (b : Block),
      blocks[i]? = some b →
      (b.tag = .RAMP ∨ b.tag = .WARMUP ∨ b.tag = .COOLDOWN) →
      (bodyElementNames blocks)[i]? =
        some (some (_classify_ramp_type (i + 1) blocks.length)) ∧
      (i = 0 → _classify_ramp_type (i + 1) blocks.length = "WarmUp") ∧
      (i ≠ 0 → i + 1 = blocks.length →
        _classify_ramp_type (i + 1) blocks.length = "Cooldown") ∧
      (i ≠ 0 → i + 1 ≠ blocks.length →
        _classify_ramp_type (i + 1) blocks.length = "Ramp")) ∧
    _classify_ramp_type 1 1 = "WarmUp" := by
  constructor
  · intro blocks i b hget htag
    refine ⟨?_, ?_, ?_, ?_⟩
    · rw [bodyElementNames, namesFrom_get blocks 1 blocks.length i, hget]
      have hkey : zwiftKeyFor b.tag (i + 1) blocks.length =
          some (_classify_ramp_type (i + 1) blocks.length) := by
        rcases htag with h | h | h <;> simp [zwiftKeyFor, h]
      rw [Nat.add_comm 1 i]
      simp [hkey]
    · intro hi
      subst hi
      simp [_classify_ramp_type]
    · intro hi hlast
      have h2 : blocks.length ≠ 1 := by omega
      simp [_classify_ramp_type, hlast, h2]
    · intro hi hlast
      have h1 : i + 1 ≠ 1 := by omega
      simp [_classify_ramp_type, h1, hlast]
  · rfl

/-- A three-block body used to exercise the ramp heuristic. -/
def exRampBlocks : List Block :=
  [⟨.RAMP, [], []⟩, ⟨.FREE, [], []⟩, ⟨.COOLDOWN, [], []⟩]

/-- Claim C8 witness: the ramp-kind block in the last of three body slots is
named "Cooldown". -/
theorem c8_witness :
    (bodyElementNames exRampBlocks)[2]? = some (some (_classify_ramp_type 3 3)) ∧
    _classify_ramp_type 3 3 = "Cooldown" :=
  ⟨(c8_ramp_classification_positional.1 exRampBlocks 2 ⟨.COOLDOWN, [], []⟩ rfl
      (Or.inr (Or.inr rfl))).1,
   (c8_ramp_classification_positional.1 exRampBlocks 2 ⟨.COOLDOWN, [], []⟩ rfl
      (Or.inr (Or.inr rfl))).2.2.1 (by decide) rfl⟩

/-! ## Decimal digit facts (claim C9) -/

theorem digitChar_toNat {d : Nat} (h : d < 10) : (digitChar d).toNat = 48 + d := by
  interval_cases d <;> rfl

theorem isDigit_digitChar {d : Nat} (h : d < 10) : isDigitChar (digitChar d) = true := by
  interval_cases d <;> rfl

theorem digitsGo_all_digits :
    ∀ (fuel n : Nat), n < fuel → ∀ c ∈ digitsGo fuel n, isDigitChar c = true := by
  intro fuel
  induction fuel with
  | zero => intro n h; omega
  | succ fuel ih =>
    intro n h c hc
    rw [digitsGo] at hc
    by_cases h10 : n < 10
    · rw [if_pos h10] at hc
      simp only [List.mem_singleton] at hc
      subst hc
      exact isDigit_digitChar h10
    · rw [if_neg h10] at hc
      rcases List.mem_append.mp hc with hl | hr
      · exact ih (n / 10) (by omega) c hl
      · simp only [List.mem_singleton] at hr
        subst hr
        exact isDigit_digitChar (Nat.mod_lt n (by omega))

theorem digitsGo_ne_nil :
    ∀ (fuel n : Nat), n < fuel → digitsGo fuel n ≠ [] := by
  intro fuel
  induction fuel with
  | zero => intro n h; omega
  | succ fuel _ =>
    intro n _
    rw [digitsGo]
    by_cases h10 : n < 10
    · rw [if_pos h10]; simp
    · rw [if_neg h10]; simp

theorem digitsGo_foldl :
    ∀ (fuel n : Nat), n < fuel → ∀ a : Nat,
      (digitsGo fuel n).foldl (fun a c => 10 * a + (c.toNat - 48)) a =
        a * 10 ^ (digitsGo fuel n).length + n := by
  intro fuel
  induction fuel with
  | zero => intro n h; omega
  | succ fuel ih =>
    intro n h a
    rw [digitsGo]
    by_cases h10 : n < 10
    · rw [if_pos h10]
      simp only [List.foldl_cons, List.foldl_nil, List.length_singleton]
      rw [digitChar_toNat h10]
      ring_nf
      omega
    · rw [if_neg h10]
      rw [List.foldl_append]
      simp only [List.foldl_cons, List.foldl_nil, List.length_append,
        List.length_singleton]
      rw [ih (n / 10) (by omega) a]
      rw [digitChar_toNat (Nat.mod_lt n (by omega))]
      have hd : 10 * (n / 10) + n % 10 = n := by omega
      set k := 10 ^ (digitsGo fuel (n / 10)).length with hk
      have hpow : 10 ^ ((digitsGo fuel (n / 10)).length + 1) = k * 10 := by
        rw [hk, pow_succ]
      rw [hpow]
      calc 10 * (a * k + n / 10) + ((48 + n % 10) - 48)
          = a * (k * 10) + (10 * (n / 10) + n % 10) := by ring_nf; omega
        _ = a * (k * 10) + n := by rw [hd]

theorem parseDigits_digitsOf (n : Nat) : parseDigits (digitsOf n) = n := by
  have h := digitsGo_foldl (n + 1) n (by omega) 0
  simpa [parseDigits, digitsOf] using h

theorem digitsOf_all_digits (n : Nat) : ∀ c ∈ digitsOf n, isDigitChar c = true :=
  digitsGo_all_digits (n + 1) n (by omega)

theorem digitsOf_ne_nil (n : Nat) : digitsOf n ≠ [] :=
  digitsGo_ne_nil (n + 1) n (by omega)

/-! Splitting `takeWhile`/`dropWhile` around a failing character. -/

theorem takeWhile_all {p : Char → Bool} :
    ∀ {xs : List Char}, (∀ x ∈ xs, p x = true) → xs.takeWhile p = xs := by
  intro xs
  induction xs with
  | nil => intro _; rfl
  | cons x rest ih =>
    intro h
    have hx : p x = true := h x (by simp)
    simp [List.takeWhile, hx, ih (fun y hy => h y (by simp [hy]))]

theorem dropWhile_all {p : Char → Bool} :
    ∀ {xs : List Char}, (∀ x ∈ xs, p x = true) → xs.dropWhile p = [] := by
  intro xs
  induction xs with
  | nil => intro _; rfl
  | cons x rest ih =>
    intro h
    have hx : p x = true := h x (by simp)
    simp [List.dropWhile, hx, ih (fun y hy => h y (by simp [hy]))]

theorem takeWhile_append_stop {p : Char → Bool} {c : Char} {ys : List Char}
    (hc : p c = false) :
    ∀ {xs : List Char}, (∀ x ∈ xs, p x = true) →
      (xs ++ c :: ys).takeWhile p = xs := by
  intro xs
  induction xs with
  | nil => intro _; simp [List.takeWhile, hc]
  | cons x rest ih =>
    intro h
    have hx : p x = true := h x (by simp)
    simp [List.takeWhile, hx, ih (fun y hy => h y (by simp [hy]))]

theorem dropWhile_append_stop {p : Char → Bool} {c : Char} {ys : List Char}
    (hc : p c = false) :
    ∀ {xs : List Char}, (∀ x ∈ xs, p x = true) →
      (xs ++ c :: ys).dropWhile p = c :: ys := by
  intro xs
  induction xs with
  | nil => intro _; simp [List.dropWhile, hc]
  | cons x rest ih =>
    intro h
    have hx : p x = true := h x (by simp)
    simp [List.dropWhile, hx, ih (fun y hy => h y (by simp [hy]))]

/-- `numberMatch` consumes exactly a maximal digit run: on the decimal text
of `n` followed by a non-digit character it returns `n` and the rest. -/
theorem numberMatch_digits_stop (n : Nat) (c : Char) (rest : List Char)
    (hc : isDigitChar c = false) :
    numberMatch (digitsOf n ++ c :: rest) = some (n, c :: rest) := by
  unfold numberMatch
  rw [takeWhile_append_stop hc (digitsOf_all_digits n),
    dropWhile_append_stop hc (digitsOf_all_digits n)]
  have hne : (digitsOf n).isEmpty = false := by
    cases h : digitsOf n with
    | nil => exact absurd h (digitsOf_ne_nil n)
    | cons a l => rfl
  simp only [hne, Bool.false_eq_true, if_false, parseDigits_digitsOf]

/-- `numberMatch` on a pure decimal text consumes it entirely. -/
theorem numberMatch_digits_all (n : Nat) :
    numberMatch (digitsOf n) = some (n, []) := by
  unfold numberMatch
  rw [takeWhile_all (digitsOf_all_digits n), dropWhile_all (digitsOf_all_digits n)]
  have hne : (digitsOf n).isEmpty = false := by
    cases h : digitsOf n with
    | nil => exact absurd h (digitsOf_ne_nil n)
    | cons a l => rfl
  simp only [hne, Bool.false_eq_true, if_false, parseDigits_digitsOf]

/-- Claim C9: the duration literal `"mm:ss"` (decimal texts of any
non-negative `m` and `s` joined by a colon) matches the `duration` rule
exactly, yielding the numbers `m` and `s` with no input left; the visitor
turns that match into a `Duration` of `m*60 + s` total seconds; and
rendering that `Duration` back (`str(int(total_seconds))`) yields precisely
the decimal digit string of `m*60 + s`. -/
theorem c9_duration_round_trip (m s : Nat) :
    durationMatch (digitsOf m ++ ':' :: digitsOf s) = some ((m, s), []) ∧
    visitScalar (.dur m s) = .ok (.dur (m * 60 + s)) ∧
    pyStrVal (.dur (m * 60 + s)) = .txt (digitsOf (m * 60 + s)) := by
  refine ⟨?_, rfl, rfl⟩
  unfold durationMatch
  rw [numberMatch_digits_stop m ':' (digitsOf s) (by decide)]
  simp only [chomp, if_pos rfl, if_true]
  rw [numberMatch_digits_all s]

/-! ## Claim C7: empty / whitespace-only documents -/

theorem space_facts {c : Char} (h : isPySpace c = true) :
    c ≠ ';' ∧ isTagChar c = false := by
  simp only [isPySpace, Bool.or_eq_true, decide_eq_true_eq] at h
  rcases h with ((((h | h) | h) | h) | h) | h <;> subst h <;>
    exact ⟨by decide, by decide⟩

/-- At a whitespace character neither document-level alternative can start:
`comment` needs `;` and `block` needs a `[A-Z_]` tag character. -/
theorem chunkMatch_space_head {c : Char} {cs : List Char} (h : isPySpace c = true) :
    chunkMatch (c :: cs) = none := by
  obtain ⟨h1, h2⟩ := space_facts h
  have ht : (c :: cs).takeWhile isTagChar = [] := by
    simp [List.takeWhile, h2]
  simp [chunkMatch, commentMatch, blockMatch, tagMatch, h1, ht]

/-- Claim C7: every input that is empty or consists only of whitespace
parses successfully to the empty block sequence — the `workout` loop finds
no chunk, the grammar's `elws` alternative consumes the whole input, and
`visit_workout` returns `[]` for a document whose text strips to empty. -/
theorem c7_whitespace_parses_empty (s : List Char)
    (h : ∀ c ∈ s, isPySpace c = true) : parse_src s = .ok [] := by
  cases s with
  | nil => rfl
  | cons c cs =>
    have hchunk : chunkMatch (c :: cs) = none :=
      chunkMatch_space_head (h c (by simp))
    have hloop : workoutLoop (c :: cs) = ([], c :: cs) := by
      simp [workoutLoop, workoutGo, hchunk]
    have hmatch : workoutMatch (c :: cs) = ([], (c :: cs).dropWhile isPySpace) := by
      unfold workoutMatch
      rw [hloop]
      simp
    unfold parse_src
    rw [hmatch, dropWhile_all h]
    have hall : (c :: cs).all isPySpace = true := by
      simp only [List.all_eq_true]
      intro x hx
      exact h x hx
    simp [hall, visitChunks]

/-- Claim C7 witness: a concrete two-character whitespace document parses to
the empty workout. -/
theorem c7_witness :
    (∀ c ∈ [' ', '\n'], isPySpace c = true) ∧ parse_src [' ', '\n'] = .ok [] :=
  ⟨by decide, c7_whitespace_parses_empty [' ', '\n'] (by decide)⟩

/-! ## Scan lemmas (claims C1 and C5) -/

theorem scanBlocks_append (ftp : Option Nat) (xs ys : List Block) :
    ∀ st, scanBlocks ftp st (xs ++ ys) =
      match scanBlocks ftp st xs with
      | .error e => .error e
      | .ok st1 => scanBlocks ftp st1 ys := by
  induction xs with
  | nil => intro st; rfl
  | cons b bs ih =>
    intro st
    simp only [List.cons_append, scanBlocks]
    cases scanStep ftp st b with
    | error e => rfl
    | ok st1 => exact ih st1

/-- The state produced when the repeat buffer is dumped (`validated_blocks
.extend(repeat_blocks * n_repeats)` followed by the buffer reset). -/
def dumpState (st : ScanState) : ScanState where
  inRepeat := false
  nRepeats := -1
  repeatBlocks := []
  validated := st.validated ++ (List.replicate st.nRepeats.toNat st.repeatBlocks).flatten

theorem dispatchBlock_nonmarker {st st1 : ScanState} {b : Block}
    (h1 : b.tag ≠ .START_REPEAT) (h2 : b.tag ≠ .END_REPEAT)
    (h : dispatchBlock st b = .ok st1) : st1 = st := by
  unfold dispatchBlock at h
  rw [show b.tag = b.tag from rfl] at h
  cases htag : b.tag <;> rw [htag] at h <;> simp only at h <;>
    first
      | exact absurd htag h1
      | exact absurd htag h2
      | exact Except.noConfusion h
      | (split at h
         · exact Except.noConfusion h
         · injection h with h
           exact h.symm)

theorem dispatchBlock_start {st st1 : ScanState} {b : Block}
    (htag : b.tag = .START_REPEAT) (h : dispatchBlock st b = .ok st1) :
    st.inRepeat = false ∧ ∃ n : Nat, n ≠ 0 ∧
      dictGet b.params .REPEAT = some (.i n) ∧
      st1 = { st with inRepeat := true, nRepeats := (n : Int) } := by
  unfold dispatchBlock at h
  rw [htag] at h
  simp only at h
  by_cases hir : st.inRepeat
  · rw [if_pos hir] at h
    exact Except.noConfusion h
  · rw [if_neg hir] at h
    refine ⟨by simpa using hir, ?_⟩
    split at h
    · exact Except.noConfusion h
    · split at h
      · rename_i n hget
        by_cases hn : n = 0
        · rw [if_pos hn] at h
          exact Except.noConfusion h
        · rw [if_neg hn] at h
          injection h with h
          exact ⟨n, hn, hget, h.symm⟩
      · exact Except.noConfusion h
      · exact Except.noConfusion h

theorem dispatchBlock_end {st st1 : ScanState} {b : Block}
    (htag : b.tag = .END_REPEAT) (h : dispatchBlock st b = .ok st1) :
    st.inRepeat = true ∧ st1 = { st with inRepeat := false } := by
  unfold dispatchBlock at h
  rw [htag] at h
  simp only at h
  by_cases hir : st.inRepeat
  · rw [if_pos hir] at h
    injection h with h
    exact ⟨hir, h.symm⟩
  · rw [if_neg hir] at h
    exact Except.noConfusion h

theorem dispatchBlock_nested {st : ScanState} {b : Block}
    (htag : b.tag = .START_REPEAT) (hir : st.inRepeat = true) :
    dispatchBlock st b = .error .nestedRepeat := by
  unfold dispatchBlock
  rw [htag]
  simp only
  rw [if_pos hir]

theorem dispatchBlock_missing_start {st : ScanState} {b : Block}
    (htag : b.tag = .END_REPEAT) (hir : st.inRepeat = false) :
    dispatchBlock st b = .error .missingStartRepeat := by
  unfold dispatchBlock
  rw [htag]
  simp only
  rw [if_neg (by simp [hir])]

theorem scanStep_dispatch_error {ftp : Option Nat} {st : ScanState} {b : Block}
    {e : VError} (h : dispatchBlock st b = .error e) :
    scanStep ftp st b = .error e := by
  unfold scanStep
  rw [h]

theorem scanStep_ok_elim {ftp : Option Nat} {st st2 : ScanState} {b : Block}
    (h : scanStep ftp st b = .ok st2) :
    ∃ st1, dispatchBlock st b = .ok st1 ∧ st2 = bookkeep st1 b := by
  unfold scanStep at h
  split at h
  · exact Except.noConfusion h
  · rename_i st1 hd
    split at h
    · exact Except.noConfusion h
    · injection h with h
      exact ⟨st1, hd, h.symm⟩

/-- Complete case analysis of one successful scan iteration: the four
reachable shapes of the repeat bookkeeping. -/
theorem scanStep_ok_spec {ftp : Option Nat} {st st2 : ScanState} {b : Block}
    (h : scanStep ftp st b = .ok st2) :
    (b.tag = .START_REPEAT ∧ st.inRepeat = false ∧ ∃ n : Nat, n ≠ 0 ∧
       dictGet b.params .REPEAT = some (.i n) ∧
       st2 = { st with inRepeat := true, nRepeats := (n : Int) }) ∨
    (b.tag = .END_REPEAT ∧ st.inRepeat = true ∧
       ((st.repeatBlocks = [] ∧ st2 = { st with inRepeat := false }) ∨
        (st.repeatBlocks ≠ [] ∧ st2 = dumpState st))) ∨
    (b.tag ≠ .START_REPEAT ∧ b.tag ≠ .END_REPEAT ∧ st.inRepeat = true ∧
       st2 = { st with repeatBlocks := st.repeatBlocks ++ [b] }) ∨
    (b.tag ≠ .START_REPEAT ∧ b.tag ≠ .END_REPEAT ∧ st.inRepeat = false ∧
       ((st.repeatBlocks = [] ∧ st2 = { st with validated := st.validated ++ [b] }) ∨
        (st.repeatBlocks ≠ [] ∧ st2 = dumpState st))) := by
  obtain ⟨st1, hd, hbk⟩ := scanStep_ok_elim h
  by_cases hs : b.tag = .START_REPEAT
  · obtain ⟨hir, n, hn, hget, hst1⟩ := dispatchBlock_start hs hd
    left
    refine ⟨hs, hir, n, hn, hget, ?_⟩
    subst hst1
    rw [hbk]
    simp [bookkeep, hs]
  · by_cases he : b.tag = .END_REPEAT
    · obtain ⟨hir, hst1⟩ := dispatchBlock_end he hd
      right; left
      refine ⟨he, hir, ?_⟩
      subst hst1
      rw [hbk]
      by_cases hrb : st.repeatBlocks = []
      · left
        refine ⟨hrb, ?_⟩
        simp [bookkeep, he, hrb]
      · right
        refine ⟨hrb, ?_⟩
        simp [bookkeep, he, List.isEmpty_iff, hrb, dumpState]
    · have hst1 : st1 = st := dispatchBlock_nonmarker hs he hd
      rw [hst1] at hbk
      by_cases hir : st.inRepeat
      · right; right; left
        refine ⟨hs, he, hir, ?_⟩
        rw [hbk]
        simp [bookkeep, hir, hs]
      · right; right; right
        have hirf : st.inRepeat = false := by simpa using hir
        refine ⟨hs, he, hirf, ?_⟩
        rw [hbk]
        by_cases hrb : st.repeatBlocks = []
        · left
          refine ⟨hrb, ?_⟩
          simp [bookkeep, hirf, hrb, he]
        · right
          refine ⟨hrb, ?_⟩
          simp [bookkeep, hirf, List.isEmpty_iff, hrb, dumpState]

/-- Loop invariant: outside a repeat region the body buffer is empty. -/
theorem scanStep_inv {ftp : Option Nat} {st st2 : ScanState} {b : Block}
    (h : scanStep ftp st b = .ok st2)
    (hP : st.inRepeat = false → st.repeatBlocks = []) :
    st2.inRepeat = false → st2.repeatBlocks = [] := by
  rcases scanStep_ok_spec h with
    ⟨_, _, n, _, _, rfl⟩ | ⟨_, _, ⟨hrb, rfl⟩ | ⟨_, rfl⟩⟩ | ⟨_, _, hir, rfl⟩ |
    ⟨_, _, hir, ⟨hrb, rfl⟩ | ⟨_, rfl⟩⟩
  · intro hfalse
    simp at hfalse
  · intro _
    exact hrb
  · intro _
    rfl
  · intro hfalse
    simp [hir] at hfalse
  · intro _
    exact hrb
  · intro _
    rfl

theorem scanBlocks_inv {ftp : Option Nat} :
    ∀ {blocks : List Block} {st stF : ScanState},
      scanBlocks ftp st blocks = .ok stF →
      (st.inRepeat = false → st.repeatBlocks = []) →
      (stF.inRepeat = false → stF.repeatBlocks = []) := by
  intro blocks
  induction blocks with
  | nil =>
    intro st stF h hP
    rw [scanBlocks] at h
    injection h with h
    exact h ▸ hP
  | cons b bs ih =>
    intro st stF h hP
    rw [scanBlocks] at h
    split at h
    · exact Except.noConfusion h
    · rename_i st1 heq
      exact ih h (scanStep_inv heq hP)

theorem scanStep_validated {ftp : Option Nat} {st st2 : ScanState} {b : Block}
    (h : scanStep ftp st b = .ok st2) :
    ∃ t, st2.validated = st.validated ++ t := by
  rcases scanStep_ok_spec h with
    ⟨_, _, n, _, _, rfl⟩ | ⟨_, _, ⟨hrb, rfl⟩ | ⟨_, rfl⟩⟩ | ⟨_, _, hir, rfl⟩ |
    ⟨_, _, hir, ⟨hrb, rfl⟩ | ⟨_, rfl⟩⟩
  · exact ⟨[], by simp⟩
  · exact ⟨[], by simp⟩
  · exact ⟨_, rfl⟩
  · exact ⟨[], by simp⟩
  · exact ⟨_, rfl⟩
  · exact ⟨_, rfl⟩

theorem scanBlocks_validated {ftp : Option Nat} :
    ∀ {blocks : List Block} {st stF : ScanState},
      scanBlocks ftp st blocks = .ok stF →
      ∃ t, stF.validated = st.validated ++ t := by
  intro blocks
  induction blocks with
  | nil =>
    intro st stF h
    rw [scanBlocks] at h
    injection h with h
    exact ⟨[], by simp [h]⟩
  | cons b bs ih =>
    intro st stF h
    rw [scanBlocks] at h
    split at h
    · exact Except.noConfusion h
    · rename_i st1 heq
      obtain ⟨t1, h1⟩ := scanStep_validated heq
      obtain ⟨t2, h2⟩ := ih h
      exact ⟨t1 ++ t2, by rw [h2, h1, List.append_assoc]⟩

/-- No repeat marker appears among these blocks. -/
def markerFree (l : List Block) : Prop :=
  ∀ x ∈ l, x.tag ≠ Tag.START_REPEAT ∧ x.tag ≠ Tag.END_REPEAT

theorem markerFree_append {l1 l2 : List Block}
    (h1 : markerFree l1) (h2 : markerFree l2) : markerFree (l1 ++ l2) :=
  fun x hx => (List.mem_append.mp hx).elim (h1 x) (h2 x)

theorem markerFree_flatten_replicate {k : Nat} {l : List Block}
    (h : markerFree l) : markerFree (List.replicate k l).flatten := by
  intro x hx
  rcases List.mem_flatten.mp hx with ⟨l1, hl1, hxl⟩
  rw [List.eq_of_mem_replicate hl1] at hxl
  exact h x hxl

/-- Marker tags never reach the output or the body buffer. -/
theorem scanStep_markerFree {ftp : Option Nat} {st st2 : ScanState} {b : Block}
    (h : scanStep ftp st b = .ok st2)
    (hv : markerFree st.validated) (hr : markerFree st.repeatBlocks) :
    markerFree st2.validated ∧ markerFree st2.repeatBlocks := by
  rcases scanStep_ok_spec h with
    ⟨_, _, n, _, _, rfl⟩ | ⟨_, _, ⟨hrb, rfl⟩ | ⟨_, rfl⟩⟩ | ⟨hbs, hbe, hir, rfl⟩ |
    ⟨hbs, hbe, hir, ⟨hrb, rfl⟩ | ⟨_, rfl⟩⟩
  · exact ⟨hv, hr⟩
  · exact ⟨hv, hr⟩
  · refine ⟨markerFree_append hv (markerFree_flatten_replicate hr), ?_⟩
    intro x hx
    simp [dumpState] at hx
  · refine ⟨hv, markerFree_append hr ?_⟩
    intro x hx
    simp only [List.mem_singleton] at hx
    subst hx
    exact ⟨hbs, hbe⟩
  · refine ⟨markerFree_append hv ?_, hr⟩
    intro x hx
    simp only [List.mem_singleton] at hx
    subst hx
    exact ⟨hbs, hbe⟩
  · refine ⟨markerFree_append hv (markerFree_flatten_replicate hr), ?_⟩
    intro x hx
    simp [dumpState] at hx

theorem scanBlocks_markerFree {ftp : Option Nat} :
    ∀ {blocks : List Block} {st stF : ScanState},
      scanBlocks ftp st blocks = .ok stF →
      markerFree st.validated → markerFree st.repeatBlocks →
      markerFree stF.validated ∧ markerFree stF.repeatBlocks := by
  intro blocks
  induction blocks with
  | nil =>
    intro st stF h hv hr
    rw [scanBlocks] at h
    injection h with h
    exact h ▸ ⟨hv, hr⟩
  | cons b bs ih =>
    intro st stF h hv hr
    rw [scanBlocks] at h
    split at h
    · exact Except.noConfusion h
    · rename_i st1 heq
      obtain ⟨hv1, hr1⟩ := scanStep_markerFree heq hv hr
      exact ih h hv1 hr1

/-- Inside a repeat region, a run of marker-free blocks only accumulates in
the body buffer. -/
theorem scanBlocks_inRepeat_body {ftp : Option Nat} :
    ∀ {body : List Block} {st stF : ScanState},
      st.inRepeat = true → markerFree body →
      scanBlocks ftp st body = .ok stF →
      stF = { st with repeatBlocks := st.repeatBlocks ++ body } := by
  intro body
  induction body with
  | nil =>
    intro st stF hir hmf h
    rw [scanBlocks] at h
    injection h with h
    rw [← h]
    simp
  | cons b bs ih =>
    intro st stF hir hmf h
    rw [scanBlocks] at h
    split at h
    · exact Except.noConfusion h
    · rename_i st1 heq
      have hb := hmf b (by simp)
      rcases scanStep_ok_spec heq with
        ⟨hbs, _⟩ | ⟨hbe, _⟩ | ⟨_, _, _, rfl⟩ | ⟨_, _, hirf, _⟩
      · exact absurd hbs hb.1
      · exact absurd hbe hb.2
      · have hmf2 : markerFree bs := fun x hx => hmf x (by simp [hx])
        have := @ih { st with repeatBlocks := st.repeatBlocks ++ [b] } stF
          (by simpa using hir) hmf2 h
        rw [this]
        simp
      · rw [hir] at hirf
        exact Bool.noConfusion hirf

/-- The heart of claim C1: scanning a whole well-delimited repeat region
from a NORMAL state with an empty buffer emits the body `n` times and
returns to a NORMAL, empty-buffer state. -/
theorem scanBlocks_region {ftp : Option Nat} {st stF : ScanState}
    {startB endB : Block} {body : List Block} {n : Nat}
    (hir : st.inRepeat = false) (hrb : st.repeatBlocks = [])
    (hs : startB.tag = .START_REPEAT)
    (hn : dictGet startB.params .REPEAT = some (.i n))
    (he : endB.tag = .END_REPEAT) (hmf : markerFree body)
    (h : scanBlocks ftp st (startB :: (body ++ [endB])) = .ok stF) :
    n ≠ 0 ∧ stF.inRepeat = false ∧ stF.repeatBlocks = [] ∧
      stF.validated = st.validated ++ (List.replicate n body).flatten := by
  rw [scanBlocks] at h
  split at h
  · exact Except.noConfusion h
  · rename_i st1 heq
    rcases scanStep_ok_spec heq with
      ⟨_, _, n1, hn1, hget1, hst1⟩ | ⟨hbe, _⟩ | ⟨hbs, _⟩ | ⟨hbs, _⟩
    · have hnn : n1 = n := by
        rw [hget1] at hn
        simpa using hn
      subst hnn
      subst hst1
      rw [scanBlocks_append] at h
      split at h
      · exact Except.noConfusion h
      · rename_i st2 heq2
        have hst2 := scanBlocks_inRepeat_body (by simp) hmf heq2
        rw [scanBlocks] at h
        split at h
        · exact Except.noConfusion h
        · rename_i st3 heq3
          rw [scanBlocks] at h
          injection h with h
          subst h
          rcases scanStep_ok_spec heq3 with
            ⟨hbs3, _⟩ | ⟨_, _, ⟨hrb3, hst3⟩ | ⟨hrb3, hst3⟩⟩ | ⟨_, hbe3, _⟩ |
            ⟨_, hbe3, _⟩
          · rw [he] at hbs3
            exact Tag.noConfusion hbs3
          · -- empty-body subcase: the buffer never filled
            rw [hst2] at hrb3
            simp [hrb] at hrb3
            subst hrb3
            subst hst3
            rw [hst2]
            refine ⟨hn1, rfl, by simp [hrb], ?_⟩
            simp
          · -- non-empty body: the buffer is dumped n times
            subst hst3
            rw [hst2]
            refine ⟨hn1, rfl, rfl, ?_⟩
            simp [dumpState, hst2, hrb]
          · exact absurd he hbe3
          · exact absurd he hbe3
    · rw [hs] at hbe
      exact Tag.noConfusion hbe
    · exact absurd hs hbs
    · exact absurd hs hbs

theorem validate_scanned_ok_elim {b0 : Block} {rest out : List Block}
    {ftp : Option Nat}
    (h : validate_scanned (b0 :: rest) = .ok (out, ftp)) :
    b0.tag = .META ∧ visit_meta_block b0.params = .ok ftp ∧
    ∃ stF, scanBlocks ftp (initState b0) rest = .ok stF ∧
      stF.inRepeat = false ∧ out = stF.validated := by
  have h0 : (match validateFrom b0 rest with
      | .error e => Except.error (VFailure.validationError e)
      | .ok x => Except.ok x) = Except.ok (out, ftp) := h
  cases hvf : validateFrom b0 rest with
  | error e =>
    rw [hvf] at h0
    exact Except.noConfusion h0
  | ok x =>
    rw [hvf] at h0
    have h1 : (Except.ok x : Except VFailure (List Block × Option Nat)) =
        Except.ok (out, ftp) := h0
    injection h1 with h1
    subst h1
    by_cases hmeta : b0.tag = .META
    · have hvf1 : (match visit_meta_block b0.params with
          | .error e => Except.error e
          | .ok ftp2 =>
            match scanBlocks ftp2 (initState b0) rest with
            | .error e => Except.error e
            | .ok stF =>
              if stF.inRepeat then Except.error VError.missingEndRepeat
              else Except.ok (stF.validated, ftp2)) = Except.ok (out, ftp) := by
        unfold validateFrom at hvf
        rw [if_pos hmeta] at hvf
        exact hvf
      cases hvm : visit_meta_block b0.params with
      | error e =>
        rw [hvm] at hvf1
        exact Except.noConfusion hvf1
      | ok ftp1 =>
        rw [hvm] at hvf1
        have hvf2 : (match scanBlocks ftp1 (initState b0) rest with
            | .error e => Except.error e
            | .ok stF =>
              if stF.inRepeat then Except.error VError.missingEndRepeat
              else Except.ok (stF.validated, ftp1)) = Except.ok (out, ftp) := hvf1
        cases hscan : scanBlocks ftp1 (initState b0) rest with
        | error e =>
          rw [hscan] at hvf2
          exact Except.noConfusion hvf2
        | ok stF =>
          rw [hscan] at hvf2
          have hvf3 : (if stF.inRepeat then Except.error VError.missingEndRepeat
              else (Except.ok (stF.validated, ftp1) :
                Except VError (List Block × Option Nat))) =
              Except.ok (out, ftp) := hvf2
          by_cases hirF : stF.inRepeat
          · rw [if_pos hirF] at hvf3
            exact Except.noConfusion hvf3
          · rw [if_neg hirF] at hvf3
            injection hvf3 with hvf3
            have hv1 : stF.validated = out := congrArg Prod.fst hvf3
            have hv2 : ftp1 = ftp := congrArg Prod.snd hvf3
            subst hv2
            exact ⟨hmeta, rfl, stF, hscan, by simpa using hirF, hv1.symm⟩
    · exfalso
      unfold validateFrom at hvf
      rw [if_neg hmeta] at hvf
      exact Except.noConfusion hvf

/-- Claim C1: whenever validation of a raw sequence containing the repeat
region `START_REPEAT{REPEAT n} body END_REPEAT` succeeds, its repeat count
is positive and the output is exactly (validated prefix) ++ (body repeated
`n` times, contiguously, in original order) ++ (suffix contribution) — the
prefix part being precisely the blocks validated before the START_REPEAT
marker — and the output never contains a START_REPEAT or END_REPEAT block. -/
theorem c1_repeat_expansion
    (metaB startB endB : Block) (pre body post : List Block) (n : Nat)
    (out : List Block) (ftp : Option Nat)
    (hs : startB.tag = .START_REPEAT)
    (hn : dictGet startB.params .REPEAT = some (.i n))
    (he : endB.tag = .END_REPEAT)
    (hmf : ∀ x ∈ body, x.tag ≠ Tag.START_REPEAT ∧ x.tag ≠ Tag.END_REPEAT)
    (hok : validate_scanned (metaB :: (pre ++ startB :: (body ++ endB :: post))) =
      .ok (out, ftp)) :
    n ≠ 0 ∧
    ∃ a c, out = a ++ (List.replicate n body).flatten ++ c ∧
      (∀ x ∈ out, x.tag ≠ Tag.START_REPEAT ∧ x.tag ≠ Tag.END_REPEAT) ∧
      ∃ st1, scanBlocks ftp (initState metaB) pre = .ok st1 ∧
        st1.validated = a := by
  obtain ⟨hmeta, hvm, stF, hscan, hirF, hout⟩ := validate_scanned_ok_elim hok
  have hlist : pre ++ startB :: (body ++ endB :: post) =
      (pre ++ (startB :: (body ++ [endB]))) ++ post := by
    simp
  rw [hlist, scanBlocks_append] at hscan
  split at hscan
  · exact Except.noConfusion hscan
  · rename_i stMid heqMid
    rw [scanBlocks_append] at heqMid
    split at heqMid
    · exact Except.noConfusion heqMid
    · rename_i st1 heq1
      have hinv1 : st1.inRepeat = false → st1.repeatBlocks = [] :=
        scanBlocks_inv heq1 (fun _ => rfl)
      have hir1 : st1.inRepeat = false := by
        rw [scanBlocks] at heqMid
        split at heqMid
        · exact Except.noConfusion heqMid
        · rename_i stX heqX
          rcases scanStep_ok_spec heqX with
            ⟨_, hirf, _⟩ | ⟨hbe, _⟩ | ⟨hbs, _⟩ | ⟨hbs, _⟩
          · exact hirf
          · rw [hs] at hbe
            exact Tag.noConfusion hbe
          · exact absurd hs hbs
          · exact absurd hs hbs
      obtain ⟨hn0, hirM, hrbM, hvalM⟩ :=
        scanBlocks_region hir1 (hinv1 hir1) hs hn he hmf heqMid
      obtain ⟨tail, htail⟩ := scanBlocks_validated hscan
      have hmfMeta : markerFree (initState metaB).validated := by
        intro x hx
        simp only [initState, List.mem_singleton] at hx
        subst hx
        constructor <;> simp [hmeta]
      have hmfr : markerFree (initState metaB).repeatBlocks := by
        intro x hx
        simp [initState] at hx
      have hmk1 := scanBlocks_markerFree heq1 hmfMeta hmfr
      have hmk2 := scanBlocks_markerFree heqMid hmk1.1 hmk1.2
      have hmk3 := scanBlocks_markerFree hscan hmk2.1 hmk2.2
      refine ⟨hn0, st1.validated, tail, ?_, ?_, st1, heq1, rfl⟩
      · rw [hout, htail, hvalM]
      · rw [hout]
        exact hmk3.1

/-- Claim C1 witness: `META / START_REPEAT{REPEAT 2} / SEGMENT / END_REPEAT`
validates to META followed by the segment twice. -/
theorem c1_witness :
    (validate_scanned (exMeta :: ([] ++ exStart2 :: ([exSeg] ++ exEnd :: []))) =
      .ok ([exMeta, exSeg, exSeg], none)) ∧
    (2 ≠ 0 ∧
     ∃ a c, [exMeta, exSeg, exSeg] = a ++ (List.replicate 2 [exSeg]).flatten ++ c ∧
       (∀ x ∈ [exMeta, exSeg, exSeg],
         x.tag ≠ Tag.START_REPEAT ∧ x.tag ≠ Tag.END_REPEAT) ∧
       ∃ st1, scanBlocks none (initState exMeta) [] = .ok st1 ∧
         st1.validated = a) :=
  ⟨rfl,
   c1_repeat_expansion exMeta exStart2 exEnd [] [exSeg] [] 2
     [exMeta, exSeg, exSeg] none rfl rfl rfl (by decide) rfl⟩

/-! ## Claim C5: the three structural repeat errors -/

theorem validate_scanned_error {b0 : Block} {rest : List Block} {e : VError}
    (h : validateFrom b0 rest = .error e) :
    validate_scanned (b0 :: rest) = .error (.validationError e) := by
  have h0 : validate_scanned (b0 :: rest) =
      (match validateFrom b0 rest with
       | .error e => Except.error (VFailure.validationError e)
       | .ok x => Except.ok x) := rfl
  rw [h0, h]

theorem validateFrom_error_of_scan {b0 : Block} {rest : List Block}
    {ftp : Option Nat} {e : VError}
    (hmeta : b0.tag = .META) (hvm : visit_meta_block b0.params = .ok ftp)
    (hscan : scanBlocks ftp (initState b0) rest = .error e) :
    validateFrom b0 rest = .error e := by
  unfold validateFrom
  rw [if_pos hmeta, hvm]
  exact (show (match scanBlocks ftp (initState b0) rest with
      | .error e => Except.error e
      | .ok stF =>
        if stF.inRepeat then Except.error VError.missingEndRepeat
        else Except.ok (stF.validated, ftp)) = Except.error e by rw [hscan])

theorem validateFrom_missingEnd {b0 : Block} {rest : List Block}
    {ftp : Option Nat} {st : ScanState}
    (hmeta : b0.tag = .META) (hvm : visit_meta_block b0.params = .ok ftp)
    (hscan : scanBlocks ftp (initState b0) rest = .ok st)
    (hir : st.inRepeat = true) :
    validateFrom b0 rest = .error .missingEndRepeat := by
  unfold validateFrom
  rw [if_pos hmeta, hvm]
  refine (show (match scanBlocks ftp (initState b0) rest with
      | .error e => Except.error e
      | .ok stF =>
        if stF.inRepeat then Except.error VError.missingEndRepeat
        else Except.ok (stF.validated, ftp)) =
      Except.error VError.missingEndRepeat from ?_)
  rw [hscan]
  show (if st.inRepeat then Except.error VError.missingEndRepeat
    else Except.ok (st.validated, ftp)) = Except.error VError.missingEndRepeat
  rw [if_pos hir]

/-- Claim C5: a START_REPEAT reached while the scan is already inside a
repeat region always fails validation with the nested-repeat
ValidationError; an END_REPEAT reached outside one always fails with the
missing-START_REPEAT ValidationError; and a scan that runs out of input
while still inside one always fails with the missing-END_REPEAT
ValidationError. -/
theorem c5_repeat_structure_errors :
    (∀ (metaB : Block) (pre : List Block) (b : Block) (post : List Block)
       (ftp : Option Nat) (st : ScanState),
       metaB.tag = .META → visit_meta_block metaB.params = .ok ftp →
       scanBlocks ftp (initState metaB) pre = .ok st →
       st.inRepeat = true → b.tag = .START_REPEAT →
       validate_scanned (metaB :: (pre ++ b :: post)) =
         .error (.validationError .nestedRepeat)) ∧
    (∀ (metaB : Block) (pre : List Block) (b : Block) (post : List Block)
       (ftp : Option Nat) (st : ScanState),
       metaB.tag = .META → visit_meta_block metaB.params = .ok ftp →
       scanBlocks ftp (initState metaB) pre = .ok st →
       st.inRepeat = false → b.tag = .END_REPEAT →
       validate_scanned (metaB :: (pre ++ b :: post)) =
         .error (.validationError .missingStartRepeat)) ∧
    (∀ (metaB : Block) (rest : List Block) (ftp : Option Nat) (st : ScanState),
       metaB.tag = .META → visit_meta_block metaB.params = .ok ftp →
       scanBlocks ftp (initState metaB) rest = .ok st →
       st.inRepeat = true →
       validate_scanned (metaB :: rest) =
         .error (.validationError .missingEndRepeat)) := by
  refine ⟨?_, ?_, ?_⟩
  · intro metaB pre b post ftp st hmeta hvm hpre hir hb
    have hserr : scanBlocks ftp (initState metaB) (pre ++ b :: post) =
        .error .nestedRepeat := by
      rw [scanBlocks_append, hpre]
      show scanBlocks ftp st (b :: post) = Except.error VError.nestedRepeat
      rw [scanBlocks, scanStep_dispatch_error (dispatchBlock_nested hb hir)]
    exact validate_scanned_error (validateFrom_error_of_scan hmeta hvm hserr)
  · intro metaB pre b post ftp st hmeta hvm hpre hir hb
    have hserr : scanBlocks ftp (initState metaB) (pre ++ b :: post) =
        .error .missingStartRepeat := by
      rw [scanBlocks_append, hpre]
      show scanBlocks ftp st (b :: post) = Except.error VError.missingStartRepeat
      rw [scanBlocks, scanStep_dispatch_error (dispatchBlock_missing_start hb hir)]
    exact validate_scanned_error (validateFrom_error_of_scan hmeta hvm hserr)
  · intro metaB rest ftp st hmeta hvm hscan hir
    exact validate_scanned_error (validateFrom_missingEnd hmeta hvm hscan hir)

/-- Claim C5 witness: the three failure shapes on concrete inputs. -/
theorem c5_witness :
    validate_scanned [exMeta, exStart2, exStart2] =
      .error (.validationError .nestedRepeat) ∧
    validate_scanned [exMeta, exEnd] =
      .error (.validationError .missingStartRepeat) ∧
    validate_scanned [exMeta, exStart2] =
      .error (.validationError .missingEndRepeat) :=
  ⟨c5_repeat_structure_errors.1 exMeta [exStart2] exStart2 [] none
     ⟨true, 2, [], [exMeta]⟩ rfl rfl rfl rfl rfl,
   c5_repeat_structure_errors.2.1 exMeta [] exEnd [] none (initState exMeta)
     rfl rfl rfl rfl rfl,
   c5_repeat_structure_errors.2.2 exMeta [exStart2] none
     ⟨true, 2, [], [exMeta]⟩ rfl rfl rfl rfl⟩

end ZWOM
